import Mathlib

/-!
Verification of the Authentication & Session subsystem of EchoOS
(`src/modules/auth.py`, class `Authenticator`).

Shallow embedding conventions:
* Python dicts (`self.users`, `self.sessions`) are association lists with
  Python-dict update semantics (`dinsert` replaces in place or appends,
  `dremove` deletes the entry, `dlookup` finds the entry).
* Wall-clock instants (`datetime.now()`) are `Int` seconds; each method that
  reads the clock takes the instant `now` as an explicit argument, and all
  `datetime.now()` calls inside one method body denote that same instant.
  `session_timeout` is kept in minutes as in the source (`self.session_timeout
  = 30`), so `timedelta(minutes=t)` is `60 * t` seconds.
* Voice embeddings (numpy float vectors) are `List ℚ`; `np.dot` is `dot`.
* `hashlib.sha256(x.encode()).hexdigest()` is an external primitive and is
  passed as a function argument `sha256 : String → String`.
* `cryptography.fernet.Fernet` is authenticated encryption: a stored blob is
  either a faithfully sealed `SessionData` or corrupt/foreign bytes, and
  `cipher.decrypt ∘ pickle.loads` either recovers the data or raises, which
  `decryptBlob` renders as `Option`.
* Disk persistence (`_save_users` / `_save_sessions`) is fail-soft and only
  observable as an event, so the state carries counters `userSaves` and
  `sessionSaves` incremented on each call.
* Python truthiness of optional strings (`if username and password:`,
  `if self.current_user:`) is `truthyStr`: `None` and `""` are falsy.
-/

namespace EchoAuth

/-- Model of `user_data['auth_type']`: the credential kind tag, `'voice'` or
`'password'`, fixed at registration. -/
inductive AuthType
  | voice
  | password
deriving DecidableEq, Repr

/-- One entry of `self.users`: the per-identity record built by
`Authenticator.register_user` (embedding for voice users, sha256 hex digest
for password users, plus `created_at` / `last_login` metadata). -/
structure UserRecord where
  auth_type : AuthType
  embedding : Option (List ℚ) := none
  password_hash : Option String := none
  created_at : Int
  last_login : Option Int := none
deriving DecidableEq, Repr

/-- The plaintext session record pickled inside a session blob
(`_create_session`'s `session_data` dict). -/
structure SessionData where
  username : String
  created_at : Int
  expires_at : Int
deriving DecidableEq, Repr

/-- A value of `self.sessions`: a Fernet ciphertext. Authenticated encryption
either round-trips a sealed `SessionData` or is corrupt/foreign bytes that
fail to decrypt. -/
inductive EncBlob
  | sealed (d : SessionData)
  | corrupt
deriving DecidableEq, Repr

/-- Model of `pickle.loads(self.cipher.decrypt b)`: recovers the sealed record, or
fails (raises in Python, `none` here) on corrupt data. -/
def decryptBlob : EncBlob → Option SessionData
  | .sealed d => some d
  | .corrupt => none

/-- Python dict lookup `m.get(k)` / `m[k]` on an association list. -/
def dlookup {α : Type} : List (String × α) → String → Option α
  | [], _ => none
  | (k', v) :: rest, k => if k' = k then some v else dlookup rest k

/-- Python dict assignment `m[k] = v`: replaces the existing entry in place,
appends at the end otherwise (insertion order preserved). -/
def dinsert {α : Type} : List (String × α) → String → α → List (String × α)
  | [], k, v => [(k, v)]
  | (k', v') :: rest, k, v =>
      if k' = k then (k, v) :: rest else (k', v') :: dinsert rest k v

/-- Python dict deletion `del m[k]`. -/
def dremove {α : Type} : List (String × α) → String → List (String × α)
  | [], _ => []
  | (k', v') :: rest, k => if k' = k then rest else (k', v') :: dremove rest k

/-- Python truthiness of an optional string: `None` and `""` are falsy. -/
def truthyStr : Option String → Bool
  | none => false
  | some s => s != ""

/-- The mutable state of an `Authenticator` instance: the two stores, the
in-memory current identity, the timeout constant, the voice-availability
flag, and counters of persistence events. -/
structure AuthState where
  users : List (String × UserRecord)
  sessions : List (String × EncBlob)
  current_user : Option String
  session_timeout : Int
  voice_auth_enabled : Bool
  userSaves : Nat
  sessionSaves : Nat
deriving DecidableEq, Repr

/-- Model of `Authenticator.__init__`: loads the two stores from disk (their loaded
contents are parameters), starts anonymous, and sets
`self.session_timeout = 30` minutes. -/
def initState (loadedUsers : List (String × UserRecord))
    (loadedSessions : List (String × EncBlob)) (voiceEnabled : Bool) :
    AuthState :=
  { users := loadedUsers, sessions := loadedSessions, current_user := none,
    session_timeout := 30, voice_auth_enabled := voiceEnabled,
    userSaves := 0, sessionSaves := 0 }

/-- Model of `Authenticator._create_session(username)`: derives the session id by
hashing `f"{username}{datetime.now()}"`, seals the session dict
(`expires_at = now + timedelta(minutes=self.session_timeout)`) with the
Fernet cipher, stores it, persists. The Python method body ends without a
`return` statement, so its value is `None` (the second component). -/
def create_session (sha256 : String → String) (s : AuthState)
    (username : String) (now : Int) : AuthState × Option String :=
  let session_id := sha256 (username ++ toString now)
  let d : SessionData :=
    { username := username, created_at := now,
      expires_at := now + 60 * s.session_timeout }
  ({ s with sessions := dinsert s.sessions session_id (EncBlob.sealed d),
            sessionSaves := s.sessionSaves + 1 }, none)

/-- Model of `Authenticator.register_user(username, password=None)`. The voice branch
is taken when voice auth is enabled and `password is None`; `voiceEmb` is the
embedding the external recorder+encoder produced for the captured sample
(`none` when capture or embedding failed, making the branch return `False`).
The password branch stores the sha256 digest; an empty password is falsy, so
it falls to the no-method error branch. -/
def register_user (sha256 : String → String) (s : AuthState)
    (username : String) (password : Option String)
    (voiceEmb : Option (List ℚ)) (now : Int) : AuthState × Bool :=
  if (dlookup s.users username).isSome then (s, false)
  else if s.voice_auth_enabled && password.isNone then
    match voiceEmb with
    | none => (s, false)
    | some emb =>
        let r : UserRecord :=
          { auth_type := .voice, embedding := some emb, created_at := now }
        ({ s with users := dinsert s.users username r,
                  userSaves := s.userSaves + 1 }, true)
  else
    match password with
    | some p =>
        if p != "" then
          let r : UserRecord :=
            { auth_type := .password, password_hash := some (sha256 p),
              created_at := now }
          ({ s with users := dinsert s.users username r,
                    userSaves := s.userSaves + 1 }, true)
        else (s, false)
    | none => (s, false)

/-- Model of `np.dot` on embedding vectors. -/
def dot : List ℚ → List ℚ → ℚ
  | a :: as, b :: bs => a * b + dot as bs
  | _, _ => 0

/-- The comparison loop of the voice branch of `Authenticator.authenticate`:
starting from `best_match = None, best_similarity = 0.0`, skip entries whose
`auth_type` is not `'voice'` or whose embedding is missing, and update the
pair on strictly greater similarity (`if similarity > best_similarity`). -/
def voiceScan (test : List ℚ) :
    List (String × UserRecord) → Option String → ℚ → Option String × ℚ
  | [], best, bestSim => (best, bestSim)
  | (u, r) :: rest, best, bestSim =>
      match r.auth_type, r.embedding with
      | AuthType.voice, some e =>
          let sim := dot test e
          if bestSim < sim then voiceScan test rest (some u) sim
          else voiceScan test rest best bestSim
      | _, _ => voiceScan test rest best bestSim

/-- The voice-authentication section of `Authenticator.authenticate` (from
`if self.voice_auth_enabled:` to the end). `voiceEmb` is the embedding of the
recorded sample (`none` when `record_voice_sample` returned `None`). On
acceptance with `best_match = None` (possible because the accumulator starts
at `0.0`), `self.current_user = best_match` has already executed when
`self.users[best_match]` raises `KeyError`, which the enclosing
`try/except` turns into a `None` return. -/
def voiceAuth (sha256 : String → String) (s : AuthState)
    (voiceEmb : Option (List ℚ)) (threshold : ℚ) (now : Int) :
    AuthState × Option String :=
  if s.voice_auth_enabled then
    match voiceEmb with
    | none => (s, none)
    | some test =>
        match voiceScan test s.users none 0 with
        | (best, bestSim) =>
          if threshold ≤ bestSim then
            match best with
            | some u =>
                match dlookup s.users u with
                | some r =>
                    let s1 : AuthState :=
                      { s with current_user := some u,
                               users := dinsert s.users u
                                 { r with last_login := some now },
                               userSaves := s.userSaves + 1 }
                    ((create_session sha256 s1 u now).1, some u)
                | none => ({ s with current_user := some u }, none)
            | none => ({ s with current_user := none }, none)
          else (s, none)
  else (s, none)

/-- The `if username and password:` section of `Authenticator.authenticate`:
unknown name → `None`; a password-kind record compares sha256 digests and on
success stamps `last_login`, persists, creates a session and returns the
name; on mismatch → `None`. When the record's `auth_type` is not
`'password'`, the inner `if` body is skipped and control falls through into
the voice section (`voiceAuth`). -/
def passwordAuth (sha256 : String → String) (s : AuthState) (u p : String)
    (voiceEmb : Option (List ℚ)) (threshold : ℚ) (now : Int) :
    AuthState × Option String :=
  match dlookup s.users u with
  | none => (s, none)
  | some r =>
      if r.auth_type = AuthType.password then
        if some (sha256 p) = r.password_hash then
          let s1 : AuthState :=
            { s with current_user := some u,
                     users := dinsert s.users u { r with last_login := some now },
                     userSaves := s.userSaves + 1 }
          ((create_session sha256 s1 u now).1, some u)
        else (s, none)
      else voiceAuth sha256 s voiceEmb threshold now

/-- Model of `Authenticator.authenticate(username, password, ...)`. Empty store →
`None`. When both `username` and `password` are truthy, the password section
(`passwordAuth`) runs against that name's record; otherwise the voice
section (`voiceAuth`) runs directly. -/
def authenticate (sha256 : String → String) (s : AuthState)
    (username password : Option String) (voiceEmb : Option (List ℚ))
    (threshold : ℚ) (now : Int) : AuthState × Option String :=
  if s.users.isEmpty then (s, none)
  else
    match username, password with
    | some u, some p =>
        if truthyStr (some u) && truthyStr (some p) then
          passwordAuth sha256 s u p voiceEmb threshold now
        else voiceAuth sha256 s voiceEmb threshold now
    | _, _ => voiceAuth sha256 s voiceEmb threshold now

/-- Model of `Authenticator.logout()`: guarded by the truthiness of
`self.current_user`, so a cached empty-string identity is left in place. -/
def logout (s : AuthState) : AuthState :=
  if truthyStr s.current_user then { s with current_user := none } else s

/-- Model of `Authenticator.is_authenticated()`: `self.current_user is not None`. -/
def is_authenticated (s : AuthState) : Bool :=
  s.current_user.isSome

/-- Model of `Authenticator.get_current_user()`. -/
def get_current_user (s : AuthState) : Option String :=
  s.current_user

/-- The per-record test of `cleanup_expired_sessions`: a record is swept when
it decrypts to data with `expires_at < now`, or when decryption (or the
`'expires_at'` access) raises, which the per-record `except` also routes to
the expired list. -/
def sessionExpired (now : Int) (b : EncBlob) : Bool :=
  match decryptBlob b with
  | some d => d.expires_at < now
  | none => true

/-- Model of `Authenticator.cleanup_expired_sessions()`: collects the expired ids in
one pass, deletes them, and persists once only when the expired list is
non-empty (`if expired:`). The method has no `return` statement, so its
Python value is `None` (second component). -/
def cleanup_expired_sessions (s : AuthState) (now : Int) :
    AuthState × Option Nat :=
  let expired := s.sessions.filter (fun p => sessionExpired now p.2)
  let kept := s.sessions.filter (fun p => !sessionExpired now p.2)
  if expired.isEmpty then ({ s with sessions := kept }, none)
  else ({ s with sessions := kept, sessionSaves := s.sessionSaves + 1 }, none)

/-- Model of `Authenticator.delete_user(username)`. -/
def delete_user (s : AuthState) (username : String) : AuthState × Bool :=
  if (dlookup s.users username).isSome then
    ({ s with users := dremove s.users username,
              userSaves := s.userSaves + 1 }, true)
  else (s, false)

/-- Modelled from the spec: `validate(session_id, now) -> Option<identity>`
of the Session Store contract (§4.4). No such method exists under `src/` —
the repository's own test `test_auth.py::test_session_management` calls
`self.auth.validate_session(session_id)` but the class does not define it.
Per the spec: look up and decrypt the record; if decryption fails or
`now >= expires_at`, treat as invalid; otherwise return the identity. -/
def validate_session (s : AuthState) (session_id : String) (now : Int) :
    Option String :=
  match dlookup s.sessions session_id with
  | none => none
  | some b =>
      match decryptBlob b with
      | none => none
      | some d => if d.expires_at ≤ now then none else some d.username

/-- The similarity table the voice loop ranges over: name and dot-product
score of every stored record that has `auth_type == 'voice'` and a present
embedding, in store iteration order. -/
def voicePairs (test : List ℚ) : List (String × UserRecord) → List (String × ℚ)
  | [] => []
  | (u, r) :: rest =>
      match r.auth_type, r.embedding with
      | AuthType.voice, some e => (u, dot test e) :: voicePairs test rest
      | _, _ => voicePairs test rest

/-- The comparison loop of the voice branch, restated on the similarity
table: strict improvement over the running `(best_match, best_similarity)`
accumulator. -/
def pairFold : List (String × ℚ) → Option String → ℚ → Option String × ℚ
  | [], best, bestSim => (best, bestSim)
  | (u, sim) :: rest, best, bestSim =>
      if bestSim < sim then pairFold rest (some u) sim
      else pairFold rest best bestSim

/-- Fixture: the record a voice enrollment with embedding `[1]` at time 0
produces. -/
def aliceRec : UserRecord :=
  { auth_type := .voice, embedding := some [1], created_at := 0 }

/-- Fixture: an instance with the single voice identity `"alice"` and voice
authentication enabled. -/
def aliceState : AuthState :=
  { users := [("alice", aliceRec)], sessions := [], current_user := none,
    session_timeout := 30, voice_auth_enabled := true, userSaves := 0,
    sessionSaves := 0 }

/-- Fixture: the record a password enrollment with password `"Secret1"` at
time 0 produces (digests shown for the identity hash). -/
def bobRec : UserRecord :=
  { auth_type := .password, password_hash := some "Secret1", created_at := 0 }

/-- Fixture: a fresh voice-disabled instance after
`register_user("bob", "Secret1")`. -/
def bobState : AuthState :=
  (register_user id (initState [] [] false) "bob" (some "Secret1") none 0).1

/-- Fixture: an instance holding `"bob"` whose cached current identity is
`"bob"`, with one (corrupt) session blob on file. -/
def bobLoggedIn : AuthState :=
  { users := [("bob", bobRec)], sessions := [("sid", EncBlob.corrupt)],
    current_user := some "bob", session_timeout := 30,
    voice_auth_enabled := false, userSaves := 0, sessionSaves := 0 }

/-- Fixture: a fresh voice-enabled instance after registering the
empty-string username as a voice identity (the source never validates
usernames, so this is a reachable state). -/
def preEmpty : AuthState :=
  (register_user id (initState [] [] true) "" none (some [1]) 0).1

/-- Fixture: `preEmpty` after a successful voice authentication as the
empty-string identity. -/
def postEmpty : AuthState :=
  (authenticate id preEmpty none none (some [1]) (3/4) 5).1

/-- Fixture: an instance holding exactly one sealed session that expires at
time 1800. -/
def oneSession : AuthState :=
  { users := [], sessions :=
      [("sid", EncBlob.sealed
          { username := "alice", created_at := 0, expires_at := 1800 })],
    current_user := none, session_timeout := 30, voice_auth_enabled := false,
    userSaves := 0, sessionSaves := 0 }

theorem dlookup_dinsert_self {α : Type} (l : List (String × α)) (k : String)
    (v : α) : dlookup (dinsert l k v) k = some v := by
  induction l with
  | nil => simp [dinsert, dlookup]
  | cons hd tl ih =>
      obtain ⟨k', v'⟩ := hd
      by_cases h : k' = k
      · simp [dinsert, dlookup, h]
      · simp [dinsert, dlookup, h, ih]

theorem dlookup_dinsert_ne {α : Type} (l : List (String × α)) (k k' : String)
    (v : α) (h : k' ≠ k) : dlookup (dinsert l k v) k' = dlookup l k' := by
  induction l with
  | nil => simp [dinsert, dlookup, Ne.symm h]
  | cons hd tl ih =>
      obtain ⟨k₀, v₀⟩ := hd
      by_cases h₀ : k₀ = k
      · subst h₀
        simp [dinsert, dlookup, Ne.symm h]
      · simp [dinsert, dlookup, h₀, ih]

theorem dlookup_dremove_ne {α : Type} (l : List (String × α)) (k k' : String)
    (h : k' ≠ k) : dlookup (dremove l k) k' = dlookup l k' := by
  induction l with
  | nil => simp [dremove]
  | cons hd tl ih =>
      obtain ⟨k₀, v₀⟩ := hd
      by_cases h₀ : k₀ = k
      · subst h₀
        simp [dremove, dlookup, Ne.symm h]
      · simp [dremove, dlookup, h₀, ih]

theorem mem_dinsert {α : Type} {l : List (String × α)} {k : String} {v : α}
    {p : String × α} (hp : p ∈ dinsert l k v) : p = (k, v) ∨ p ∈ l := by
  induction l with
  | nil => simpa [dinsert] using hp
  | cons hd tl ih =>
      obtain ⟨k', v'⟩ := hd
      by_cases h : k' = k
      · rw [dinsert, if_pos h] at hp
        rcases List.mem_cons.mp hp with rfl | hp
        · exact Or.inl rfl
        · exact Or.inr (List.mem_cons_of_mem _ hp)
      · rw [dinsert, if_neg h] at hp
        rcases List.mem_cons.mp hp with rfl | hp
        · exact Or.inr (List.mem_cons_self _ _)
        · rcases ih hp with h' | h'
          · exact Or.inl h'
          · exact Or.inr (List.mem_cons_of_mem _ h')

theorem dlookup_isEmpty_false {α : Type} {l : List (String × α)} {k : String}
    {v : α} (h : dlookup l k = some v) : l.isEmpty = false := by
  cases l with
  | nil => simp [dlookup] at h
  | cons hd tl => rfl

theorem voiceScan_eq_pairFold (test : List ℚ)
    (l : List (String × UserRecord)) :
    ∀ (b : Option String) (a : ℚ),
      voiceScan test l b a = pairFold (voicePairs test l) b a := by
  induction l with
  | nil => intro b a; rfl
  | cons hd tl ih =>
      intro b a
      obtain ⟨u, r⟩ := hd
      cases hty : r.auth_type <;> cases hemb : r.embedding <;>
        simp [voiceScan, voicePairs, hty, hemb, pairFold, ih]

theorem pairFold_low (l : List (String × ℚ)) (b : Option String) (a : ℚ)
    (h : ∀ p ∈ l, p.2 ≤ a) : pairFold l b a = (b, a) := by
  induction l with
  | nil => rfl
  | cons hd tl ih =>
      obtain ⟨u, sim⟩ := hd
      have hle : sim ≤ a := h (u, sim) (List.mem_cons_self _ _)
      simp only [pairFold, if_neg (not_lt.mpr hle)]
      exact ih fun p hp => h p (List.mem_cons_of_mem _ hp)

theorem pairFold_high (l : List (String × ℚ)) :
    ∀ (b : Option String) (a : ℚ), (∃ p ∈ l, a < p.2) →
      ∃ u m l₁ l₂, pairFold l b a = (some u, m) ∧ l = l₁ ++ (u, m) :: l₂ ∧
        (∀ p ∈ l₁, p.2 < m) ∧ (∀ p ∈ l₂, p.2 ≤ m) ∧ a < m := by
  induction l with
  | nil => rintro b a ⟨p, hp, _⟩; cases hp
  | cons hd tl ih =>
      rintro b a ⟨p, hp, hlt⟩
      obtain ⟨v, sv⟩ := hd
      by_cases hvs : a < sv
      · by_cases hrest : ∃ q ∈ tl, sv < q.2
        · obtain ⟨u, m, l₁, l₂, hfold, hdecomp, hpre, hpost, hm⟩ :=
            ih (some v) sv hrest
          refine ⟨u, m, (v, sv) :: l₁, l₂, ?_, by simp [hdecomp], ?_, hpost,
            lt_trans hvs hm⟩
          · simpa [pairFold, hvs] using hfold
          · rintro q hq
            rcases List.mem_cons.mp hq with rfl | hq
            · exact hm
            · exact hpre q hq
        · push_neg at hrest
          have hlow : pairFold tl (some v) sv = (some v, sv) :=
            pairFold_low tl (some v) sv hrest
          exact ⟨v, sv, [], tl, by simp [pairFold, hvs, hlow], rfl, by simp,
            hrest, hvs⟩
      · have hp' : p ∈ tl := by
          rcases List.mem_cons.mp hp with rfl | h'
          · exact absurd hlt hvs
          · exact h'
        obtain ⟨u, m, l₁, l₂, hfold, hdecomp, hpre, hpost, hm⟩ :=
          ih b a ⟨p, hp', hlt⟩
        refine ⟨u, m, (v, sv) :: l₁, l₂, ?_, by simp [hdecomp], ?_, hpost, hm⟩
        · simpa [pairFold, hvs] using hfold
        · rintro q hq
          rcases List.mem_cons.mp hq with rfl | hq
          · exact lt_of_le_of_lt (not_lt.mp hvs) hm
          · exact hpre q hq

theorem voicePairs_lookup (test : List ℚ) (l : List (String × UserRecord))
    (u : String) (q : ℚ) (h : (u, q) ∈ voicePairs test l) :
    (dlookup l u).isSome = true := by
  induction l with
  | nil => simp [voicePairs] at h
  | cons hd tl ih =>
      obtain ⟨k, r⟩ := hd
      by_cases hk : k = u
      · simp [dlookup, hk]
      · have h' : (u, q) ∈ voicePairs test tl := by
          cases hty : r.auth_type <;> cases hemb : r.embedding <;>
            simp only [voicePairs, hty, hemb, List.mem_cons] at h <;>
            first
            | exact h
            | (rcases h with he | h
               · exact absurd (congrArg Prod.fst he).symm hk
               · exact h)
        simp [dlookup, hk, ih h']

theorem voicePairs_ne_nil_users {test : List ℚ} {l : List (String × UserRecord)}
    (h : voicePairs test l ≠ []) : l.isEmpty = false := by
  cases l with
  | nil => exact absurd rfl h
  | cons hd tl => rfl

theorem register_user_state (sha256 : String → String) (s : AuthState)
    (username : String) (password : Option String)
    (voiceEmb : Option (List ℚ)) (now : Int) :
    (register_user sha256 s username password voiceEmb now).1.sessions =
        s.sessions ∧
      (register_user sha256 s username password voiceEmb now).1.session_timeout
        = s.session_timeout ∧
      (register_user sha256 s username password voiceEmb now).1.current_user
        = s.current_user ∧
      (register_user sha256 s username password voiceEmb now).1.sessionSaves
        = s.sessionSaves := by
  unfold register_user
  split
  · exact ⟨rfl, rfl, rfl, rfl⟩
  · split
    · cases voiceEmb with
      | none => exact ⟨rfl, rfl, rfl, rfl⟩
      | some emb => exact ⟨rfl, rfl, rfl, rfl⟩
    · cases password with
      | none => exact ⟨rfl, rfl, rfl, rfl⟩
      | some p =>
          dsimp only
          split
          · exact ⟨rfl, rfl, rfl, rfl⟩
          · exact ⟨rfl, rfl, rfl, rfl⟩

theorem register_user_password_success (sha256 : String → String)
    (s : AuthState) (username p : String) (now : Int)
    (h1 : dlookup s.users username = none) (h2 : p ≠ "") :
    register_user sha256 s username (some p) none now =
      ({ s with
          users := dinsert s.users username
            { auth_type := .password, password_hash := some (sha256 p),
              created_at := now },
          userSaves := s.userSaves + 1 }, true) := by
  unfold register_user
  simp [h1, h2]

theorem create_session_state (sha256 : String → String) (s : AuthState)
    (username : String) (now : Int) :
    (create_session sha256 s username now).1.sessions =
        dinsert s.sessions (sha256 (username ++ toString now))
          (EncBlob.sealed { username := username, created_at := now,
                            expires_at := now + 60 * s.session_timeout }) ∧
      (create_session sha256 s username now).1.session_timeout =
        s.session_timeout :=
  ⟨rfl, rfl⟩

theorem voiceAuth_state (sha256 : String → String) (s : AuthState)
    (voiceEmb : Option (List ℚ)) (threshold : ℚ) (now : Int) :
    (voiceAuth sha256 s voiceEmb threshold now).1.session_timeout =
        s.session_timeout ∧
      ((voiceAuth sha256 s voiceEmb threshold now).1.sessions = s.sessions ∨
        ∃ u, (voiceAuth sha256 s voiceEmb threshold now).1.sessions =
          dinsert s.sessions (sha256 (u ++ toString now))
            (EncBlob.sealed { username := u, created_at := now,
                              expires_at := now + 60 * s.session_timeout })) := by
  unfold voiceAuth
  split
  · cases voiceEmb with
    | none => exact ⟨rfl, Or.inl rfl⟩
    | some test =>
        dsimp only
        split
        · cases h1 : (voiceScan test s.users none 0).1 with
          | none => exact ⟨rfl, Or.inl rfl⟩
          | some u =>
              dsimp only
              cases hlk : dlookup s.users u with
              | none => exact ⟨rfl, Or.inl rfl⟩
              | some r => exact ⟨rfl, Or.inr ⟨u, rfl⟩⟩
        · exact ⟨rfl, Or.inl rfl⟩
  · exact ⟨rfl, Or.inl rfl⟩

theorem passwordAuth_state (sha256 : String → String) (s : AuthState)
    (u p : String) (voiceEmb : Option (List ℚ)) (threshold : ℚ) (now : Int) :
    (passwordAuth sha256 s u p voiceEmb threshold now).1.session_timeout
        = s.session_timeout ∧
      ((passwordAuth sha256 s u p voiceEmb threshold now).1.sessions
          = s.sessions ∨
        ∃ u', (passwordAuth sha256 s u p voiceEmb threshold now).1.sessions
          = dinsert s.sessions (sha256 (u' ++ toString now))
            (EncBlob.sealed { username := u', created_at := now,
                              expires_at := now + 60 * s.session_timeout })) := by
  unfold passwordAuth
  cases hlk : dlookup s.users u with
  | none => exact ⟨rfl, Or.inl rfl⟩
  | some r =>
      dsimp only
      split
      · split
        · exact ⟨rfl, Or.inr ⟨u, rfl⟩⟩
        · exact ⟨rfl, Or.inl rfl⟩
      · exact voiceAuth_state sha256 s voiceEmb threshold now

theorem authenticate_state (sha256 : String → String) (s : AuthState)
    (username password : Option String) (voiceEmb : Option (List ℚ))
    (threshold : ℚ) (now : Int) :
    (authenticate sha256 s username password voiceEmb threshold now).1.session_timeout
        = s.session_timeout ∧
      ((authenticate sha256 s username password voiceEmb threshold now).1.sessions
          = s.sessions ∨
        ∃ u, (authenticate sha256 s username password voiceEmb threshold now).1.sessions
          = dinsert s.sessions (sha256 (u ++ toString now))
            (EncBlob.sealed { username := u, created_at := now,
                              expires_at := now + 60 * s.session_timeout })) := by
  unfold authenticate
  split
  · exact ⟨rfl, Or.inl rfl⟩
  · cases username with
    | none =>
        cases password <;> exact voiceAuth_state sha256 s voiceEmb threshold now
    | some u =>
        cases password with
        | none => exact voiceAuth_state sha256 s voiceEmb threshold now
        | some p =>
            dsimp only
            split
            · exact passwordAuth_state sha256 s u p voiceEmb threshold now
            · exact voiceAuth_state sha256 s voiceEmb threshold now

theorem cleanup_state (s : AuthState) (now : Int) :
    (cleanup_expired_sessions s now).1.sessions =
        s.sessions.filter (fun p => !sessionExpired now p.2) ∧
      (cleanup_expired_sessions s now).1.session_timeout = s.session_timeout ∧
      (cleanup_expired_sessions s now).1.users = s.users ∧
      (cleanup_expired_sessions s now).1.current_user = s.current_user ∧
      (cleanup_expired_sessions s now).2 = none := by
  by_cases h :
      (s.sessions.filter fun p => sessionExpired now p.2).isEmpty = true <;>
    simp [cleanup_expired_sessions, h]

theorem filter_not_filter_eq_nil {α : Type} (f : α → Bool) (l : List α) :
    (l.filter fun a => !f a).filter f = [] := by
  induction l with
  | nil => rfl
  | cons hd tl ih =>
      by_cases h : f hd = true
      · simp [List.filter, h, ih]
      · simp [List.filter, h, ih]

theorem filter_not_idem {α : Type} (f : α → Bool) (l : List α) :
    (l.filter fun a => !f a).filter (fun a => !f a) =
      l.filter fun a => !f a := by
  induction l with
  | nil => rfl
  | cons hd tl ih =>
      by_cases h : f hd = true
      · simp [List.filter, h, ih]
      · simp [List.filter, h, ih]

/-- One public operation of the `Authenticator`, as a transition between
instance states (parameters are arbitrary; the wall clock is an arbitrary
instant). -/
inductive Step (sha256 : String → String) : AuthState → AuthState → Prop
  | register (s : AuthState) (username : String) (password : Option String)
      (voiceEmb : Option (List ℚ)) (now : Int) :
      Step sha256 s (register_user sha256 s username password voiceEmb now).1
  | auth (s : AuthState) (username password : Option String)
      (voiceEmb : Option (List ℚ)) (threshold : ℚ) (now : Int) :
      Step sha256 s
        (authenticate sha256 s username password voiceEmb threshold now).1
  | createSess (s : AuthState) (username : String) (now : Int) :
      Step sha256 s (create_session sha256 s username now).1
  | doLogout (s : AuthState) : Step sha256 s (logout s)
  | cleanup (s : AuthState) (now : Int) :
      Step sha256 s (cleanup_expired_sessions s now).1
  | deleteUser (s : AuthState) (username : String) :
      Step sha256 s (delete_user s username).1

/-- The session-record shape `_create_session` establishes: whatever the
blob decrypts to satisfies the exact-expiry equation and strict monotonicity
(vacuous for corrupt blobs). -/
def SessionRecordOk (timeout : Int) (b : EncBlob) : Prop :=
  ∀ d, decryptBlob b = some d →
    d.expires_at = d.created_at + 60 * timeout ∧ d.created_at < d.expires_at

/-- All stored session records are well-shaped for the instance's timeout. -/
def SessionsOk (s : AuthState) : Prop :=
  ∀ p ∈ s.sessions, SessionRecordOk s.session_timeout p.2

theorem authenticate_some_some (sha256 : String → String) (s : AuthState)
    (u p : String) (voiceEmb : Option (List ℚ)) (threshold : ℚ) (now : Int) :
    authenticate sha256 s (some u) (some p) voiceEmb threshold now =
      if s.users.isEmpty then (s, none)
      else if truthyStr (some u) && truthyStr (some p) then
        passwordAuth sha256 s u p voiceEmb threshold now
      else voiceAuth sha256 s voiceEmb threshold now := rfl

theorem authenticate_no_pair (sha256 : String → String) (s : AuthState)
    (username password : Option String) (voiceEmb : Option (List ℚ))
    (threshold : ℚ) (now : Int) (h : username = none ∨ password = none) :
    authenticate sha256 s username password voiceEmb threshold now =
      if s.users.isEmpty then (s, none)
      else voiceAuth sha256 s voiceEmb threshold now := by
  rcases h with rfl | rfl
  · cases password <;> rfl
  · cases username <;> rfl

theorem truthyStr_some {u : String} (h : u ≠ "") :
    truthyStr (some u) = true := by
  simp [truthyStr, h]

theorem passwordAuth_absent (sha256 : String → String) (s : AuthState)
    (u p : String) (voiceEmb : Option (List ℚ)) (threshold : ℚ) (now : Int)
    (h : dlookup s.users u = none) :
    passwordAuth sha256 s u p voiceEmb threshold now = (s, none) := by
  unfold passwordAuth
  rw [h]

theorem passwordAuth_wrong_kind (sha256 : String → String) (s : AuthState)
    (u p : String) (voiceEmb : Option (List ℚ)) (threshold : ℚ) (now : Int)
    (r : UserRecord) (h : dlookup s.users u = some r)
    (hk : ¬r.auth_type = AuthType.password) :
    passwordAuth sha256 s u p voiceEmb threshold now =
      voiceAuth sha256 s voiceEmb threshold now := by
  unfold passwordAuth
  rw [h]
  dsimp only
  rw [if_neg hk]

theorem passwordAuth_hash_match (sha256 : String → String) (s : AuthState)
    (u p : String) (voiceEmb : Option (List ℚ)) (threshold : ℚ) (now : Int)
    (r : UserRecord) (h : dlookup s.users u = some r)
    (hk : r.auth_type = AuthType.password)
    (hm : some (sha256 p) = r.password_hash) :
    passwordAuth sha256 s u p voiceEmb threshold now =
      ((create_session sha256
          { s with current_user := some u,
                   users := dinsert s.users u { r with last_login := some now },
                   userSaves := s.userSaves + 1 } u now).1, some u) := by
  unfold passwordAuth
  rw [h]
  dsimp only
  rw [if_pos hk, if_pos hm]

theorem passwordAuth_hash_mismatch (sha256 : String → String) (s : AuthState)
    (u p : String) (voiceEmb : Option (List ℚ)) (threshold : ℚ) (now : Int)
    (r : UserRecord) (h : dlookup s.users u = some r)
    (hk : r.auth_type = AuthType.password)
    (hm : ¬some (sha256 p) = r.password_hash) :
    passwordAuth sha256 s u p voiceEmb threshold now = (s, none) := by
  unfold passwordAuth
  rw [h]
  dsimp only
  rw [if_pos hk, if_neg hm]

theorem register_user_existing (sha256 : String → String) (s : AuthState)
    (A : String) (r : UserRecord) (pw : Option String)
    (emb : Option (List ℚ)) (now : Int) (h : dlookup s.users A = some r) :
    register_user sha256 s A pw emb now = (s, false) := by
  unfold register_user
  rw [h]
  rfl

theorem sessionExpired_false_iff (now : Int) (b : EncBlob) :
    sessionExpired now b = false ↔
      ∃ d, decryptBlob b = some d ∧ ¬d.expires_at < now := by
  cases b with
  | sealed d => simp [sessionExpired, decryptBlob]
  | corrupt => simp [sessionExpired, decryptBlob]

theorem sessionExpired_true_iff (now : Int) (b : EncBlob) :
    sessionExpired now b = true ↔
      ∀ d, decryptBlob b = some d → d.expires_at < now := by
  cases b with
  | sealed d => simp [sessionExpired, decryptBlob]
  | corrupt => simp [sessionExpired, decryptBlob]

theorem cleanup_saves (s : AuthState) (now : Int) :
    (cleanup_expired_sessions s now).1.sessionSaves =
      if (s.sessions.filter fun p => sessionExpired now p.2).isEmpty then
        s.sessionSaves
      else s.sessionSaves + 1 := by
  by_cases h :
      (s.sessions.filter fun p => sessionExpired now p.2).isEmpty = true <;>
    simp [cleanup_expired_sessions, h]

theorem cleanup_noop (s : AuthState) (now : Int)
    (h : ∀ p ∈ s.sessions, sessionExpired now p.2 = false) :
    cleanup_expired_sessions s now = (s, none) := by
  have hE : s.sessions.filter (fun p => sessionExpired now p.2) = [] :=
    List.filter_eq_nil_iff.mpr fun p hp => by simp [h p hp]
  have hK : s.sessions.filter (fun p => !sessionExpired now p.2) = s.sessions :=
    List.filter_eq_self.mpr fun p hp => by simp [h p hp]
  simp [cleanup_expired_sessions, hE, hK]

theorem voiceAuth_accept (sha256 : String → String) (s : AuthState)
    (test : List ℚ) (threshold : ℚ) (now : Int) (u : String) (r : UserRecord)
    (hvoice : s.voice_auth_enabled = true)
    (hth : threshold ≤ (voiceScan test s.users none 0).2)
    (hbest : (voiceScan test s.users none 0).1 = some u)
    (hr : dlookup s.users u = some r) :
    voiceAuth sha256 s (some test) threshold now =
      ((create_session sha256
          { s with current_user := some u,
                   users := dinsert s.users u { r with last_login := some now },
                   userSaves := s.userSaves + 1 } u now).1, some u) := by
  unfold voiceAuth
  rw [hvoice]
  dsimp only
  rw [if_pos hth, hbest]
  dsimp only
  rw [hr]
  exact rfl

theorem voiceAuth_accept_none (sha256 : String → String) (s : AuthState)
    (test : List ℚ) (threshold : ℚ) (now : Int)
    (hvoice : s.voice_auth_enabled = true)
    (hth : threshold ≤ (voiceScan test s.users none 0).2)
    (hbest : (voiceScan test s.users none 0).1 = none) :
    voiceAuth sha256 s (some test) threshold now =
      ({ s with current_user := none }, none) := by
  unfold voiceAuth
  rw [hvoice]
  dsimp only
  rw [if_pos hth, hbest]
  exact rfl

theorem voiceAuth_reject (sha256 : String → String) (s : AuthState)
    (test : List ℚ) (threshold : ℚ) (now : Int)
    (hvoice : s.voice_auth_enabled = true)
    (hth : ¬threshold ≤ (voiceScan test s.users none 0).2) :
    voiceAuth sha256 s (some test) threshold now = (s, none) := by
  unfold voiceAuth
  rw [hvoice]
  dsimp only
  rw [if_neg hth]
  exact rfl

theorem logout_state (s : AuthState) :
    (logout s).sessions = s.sessions ∧
      (logout s).session_timeout = s.session_timeout := by
  unfold logout
  split <;> exact ⟨rfl, rfl⟩

theorem delete_user_state (s : AuthState) (u : String) :
    (delete_user s u).1.sessions = s.sessions ∧
      (delete_user s u).1.session_timeout = s.session_timeout := by
  unfold delete_user
  split <;> exact ⟨rfl, rfl⟩

theorem sessions_shape_cases (sha256 : String → String) (s s' : AuthState)
    (hT : s'.session_timeout = s.session_timeout)
    (hS : s'.sessions = s.sessions ∨
      ∃ u now, s'.sessions = dinsert s.sessions (sha256 (u ++ toString now))
        (EncBlob.sealed { username := u, created_at := now,
                          expires_at := now + 60 * s.session_timeout }))
    (hpos : 0 < s.session_timeout) :
    (∀ p ∈ s'.sessions, p ∈ s.sessions ∨
      ∃ d, p.2 = EncBlob.sealed d ∧
        d.expires_at = d.created_at + 60 * s.session_timeout ∧
        d.created_at < d.expires_at) ∧
    (SessionsOk s → SessionsOk s') := by
  constructor
  · intro p hp
    rcases hS with hS | ⟨u, now, hS⟩
    · exact Or.inl (hS ▸ hp)
    · rw [hS] at hp
      rcases mem_dinsert hp with rfl | hp'
      · refine Or.inr ⟨_, rfl, rfl, ?_⟩
        show now < now + 60 * s.session_timeout
        omega
      · exact Or.inl hp'
  · intro hok
    refine fun p hp => ?_
    rw [hT]
    rcases hS with hS | ⟨u, now, hS⟩
    · exact hok p (hS ▸ hp)
    · rw [hS] at hp
      rcases mem_dinsert hp with rfl | hp'
      · refine fun d hd => ?_
        cases Option.some.inj hd
        refine ⟨rfl, ?_⟩
        show now < now + 60 * s.session_timeout
        omega
      · exact hok p hp'

/-- C2: evaluation of `_create_session` at the failing input. On a fresh
instance, `_create_session("test_user")` at instant 0 stores a session whose
sealed record round-trips through the spec's `validate` (valid at `now`,
invalid at `now + timeout + 1s`), but the method itself returns `None` — not
the generated session id the claim (and the repository's own
`test_session_management`, which also calls the absent `validate_session`)
requires. -/
theorem c2_create_session_returns_none :
    (create_session id (initState [] [] false) "test_user" 0).2 = none ∧
    validate_session (create_session id (initState [] [] false) "test_user" 0).1
        ("test_user" ++ toString (0 : Int)) 0 = some "test_user" ∧
    validate_session (create_session id (initState [] [] false) "test_user" 0).1
        ("test_user" ++ toString (0 : Int)) (0 + 60 * 30 + 1) = none := by
  decide

/-- C4: enrolling an already-present name fails (returns `False`) and leaves
the whole state unchanged; in particular enrolling `A`, then `B ≠ A`, then
`A` again succeeds twice, fails the third time without touching the state,
and `A`'s stored record after the failed third enroll is exactly the record
the first enroll stored. -/
theorem c4_enroll_unique :
    (∀ (sha256 : String → String) (s : AuthState) (A : String)
        (r : UserRecord) (pw : Option String) (emb : Option (List ℚ))
        (now : Int), dlookup s.users A = some r →
        register_user sha256 s A pw emb now = (s, false)) ∧
    (∀ (sha256 : String → String) (s0 : AuthState) (A B pA pB : String)
        (pw : Option String) (emb : Option (List ℚ)) (n1 n2 n3 : Int),
        A ≠ B → pA ≠ "" → pB ≠ "" →
        dlookup s0.users A = none → dlookup s0.users B = none →
        (register_user sha256 s0 A (some pA) none n1).2 = true ∧
        (register_user sha256 (register_user sha256 s0 A (some pA) none n1).1
            B (some pB) none n2).2 = true ∧
        register_user sha256
            (register_user sha256
              (register_user sha256 s0 A (some pA) none n1).1
              B (some pB) none n2).1 A pw emb n3 =
          ((register_user sha256
              (register_user sha256 s0 A (some pA) none n1).1
              B (some pB) none n2).1, false) ∧
        dlookup (register_user sha256
              (register_user sha256 s0 A (some pA) none n1).1
              B (some pB) none n2).1.users A =
          dlookup (register_user sha256 s0 A (some pA) none n1).1.users A) := by
  constructor
  · intro sha s A r pw emb now h
    exact register_user_existing sha s A r pw emb now h
  · intro sha s0 A B pA pB pw emb n1 n2 n3 hAB hpA hpB hA hB
    have h1 := register_user_password_success sha s0 A pA n1 hA hpA
    have hA1 : dlookup (register_user sha s0 A (some pA) none n1).1.users A =
        some { auth_type := .password, password_hash := some (sha pA),
               created_at := n1 } := by
      rw [h1]
      exact dlookup_dinsert_self _ _ _
    have hB1 : dlookup (register_user sha s0 A (some pA) none n1).1.users B =
        none := by
      rw [h1]
      dsimp only
      rw [dlookup_dinsert_ne _ _ _ _ (Ne.symm hAB)]
      exact hB
    have h2 := register_user_password_success sha
      (register_user sha s0 A (some pA) none n1).1 B pB n2 hB1 hpB
    have hA2 : dlookup (register_user sha
          (register_user sha s0 A (some pA) none n1).1
          B (some pB) none n2).1.users A =
        dlookup (register_user sha s0 A (some pA) none n1).1.users A := by
      rw [h2]
      dsimp only
      exact dlookup_dinsert_ne _ _ _ _ hAB
    refine ⟨by rw [h1], by rw [h2], ?_, hA2⟩
    exact register_user_existing sha _ A
      { auth_type := .password, password_hash := some (sha pA),
        created_at := n1 } pw emb n3 (by rw [hA2, hA1])

/-- Witness for C4: on the concrete store holding `"bob"`, re-enrolling
`"bob"` fails and returns the state unchanged. -/
theorem c4_enroll_unique_witness :
    register_user id bobState "bob" (some "x") none 5 = (bobState, false) :=
  c4_enroll_unique.1 id bobState "bob" bobRec (some "x") none 5 (by decide)

/-- C6 counterexample: on a store holding exactly one expired session,
`cleanup_expired_sessions` removes that one record but its return value is
`None` (the method has no `return`), not the removal count 1 the claim
states. -/
theorem c6_counterexample :
    oneSession.sessions.length = 1 ∧
    (cleanup_expired_sessions oneSession 2000).1.sessions = [] ∧
    (cleanup_expired_sessions oneSession 2000).2 = none ∧
    (cleanup_expired_sessions oneSession 2000).2 ≠ some 1 := by
  decide

/-- C6 (amended): `cleanup_expired_sessions` keeps exactly the records that
decrypt to data with `expires_at ≥ now` (so it removes exactly the expired
and the undecryptable ones, each record judged independently and without
raising), leaves the credential store and current identity untouched,
persists once when at least one record was removed and not at all
otherwise, and returns `None` rather than any removal count. -/
theorem c6_cleanup_sweep (s : AuthState) (now : Int) :
    (∀ p, p ∈ (cleanup_expired_sessions s now).1.sessions ↔
        p ∈ s.sessions ∧ ∃ d, decryptBlob p.2 = some d ∧ ¬d.expires_at < now) ∧
    (cleanup_expired_sessions s now).2 = none ∧
    (cleanup_expired_sessions s now).1.users = s.users ∧
    (cleanup_expired_sessions s now).1.current_user = s.current_user ∧
    ((∀ p ∈ s.sessions, ∃ d, decryptBlob p.2 = some d ∧ ¬d.expires_at < now) →
        (cleanup_expired_sessions s now).1.sessionSaves = s.sessionSaves) ∧
    ((∃ p ∈ s.sessions, ∀ d, decryptBlob p.2 = some d → d.expires_at < now) →
        (cleanup_expired_sessions s now).1.sessionSaves = s.sessionSaves + 1) := by
  have hc := cleanup_state s now
  refine ⟨?_, hc.2.2.2.2, hc.2.2.1, hc.2.2.2.1, ?_, ?_⟩
  · intro p
    rw [hc.1, List.mem_filter]
    constructor
    · rintro ⟨hp, hf⟩
      exact ⟨hp, (sessionExpired_false_iff now p.2).mp (by simpa using hf)⟩
    · rintro ⟨hp, hd⟩
      have hfalse : sessionExpired now p.2 = false :=
        (sessionExpired_false_iff now p.2).mpr hd
      exact ⟨hp, by simp [hfalse]⟩
  · intro hall
    rw [cleanup_saves]
    have hE : (s.sessions.filter fun p => sessionExpired now p.2) = [] :=
      List.filter_eq_nil_iff.mpr fun p hp => by
        have hfalse : sessionExpired now p.2 = false :=
          (sessionExpired_false_iff now p.2).mpr (hall p hp)
        simp [hfalse]
    rw [hE]
    simp
  · rintro ⟨p, hp, hbad⟩
    rw [cleanup_saves]
    have ht : sessionExpired now p.2 = true :=
      (sessionExpired_true_iff now p.2).mpr hbad
    have hmem : p ∈ s.sessions.filter fun q => sessionExpired now q.2 :=
      List.mem_filter.mpr ⟨hp, ht⟩
    have hne : (s.sessions.filter fun q => sessionExpired now q.2).isEmpty
        = false := by
      cases hfe : s.sessions.filter fun q => sessionExpired now q.2 with
      | nil => rw [hfe] at hmem; cases hmem
      | cons a l => rfl
    rw [hne]
    simp

/-- Witness for C6: the amended sweep theorem applied to the one-session
fixture. -/
theorem c6_cleanup_sweep_witness :
    (cleanup_expired_sessions oneSession 2000).2 = none :=
  (c6_cleanup_sweep oneSession 2000).2.1

/-- C7: for an enrolled password-kind identity, authenticating with that
name succeeds (returns the name) exactly when the sha256 digest of the
supplied password equals the stored digest, and on digest mismatch the call
returns `None` with the state unchanged — comparison is on exact digests, so
it is case-sensitive. -/
theorem c7_password_exact (sha256 : String → String) (s : AuthState)
    (name p d : String) (r : UserRecord) (threshold : ℚ) (now : Int)
    (hn : name ≠ "") (hp : p ≠ "") (hr : dlookup s.users name = some r)
    (hk : r.auth_type = AuthType.password) (hd : r.password_hash = some d) :
    ((authenticate sha256 s (some name) (some p) none threshold now).2 =
        some name ↔ sha256 p = d) ∧
    (sha256 p ≠ d →
      authenticate sha256 s (some name) (some p) none threshold now =
        (s, none)) := by
  have hne : s.users.isEmpty = false := dlookup_isEmpty_false hr
  have hA : authenticate sha256 s (some name) (some p) none threshold now =
      passwordAuth sha256 s name p none threshold now := by
    rw [authenticate_some_some, hne]
    simp [truthyStr_some hn, truthyStr_some hp]
  by_cases hm : sha256 p = d
  · have hm' : some (sha256 p) = r.password_hash := by rw [hd, hm]
    rw [hA,
      passwordAuth_hash_match sha256 s name p none threshold now r hr hk hm']
    exact ⟨by simp [hm], fun h => absurd hm h⟩
  · have hm' : ¬some (sha256 p) = r.password_hash := by
      rw [hd]
      intro he
      exact hm (Option.some.inj he)
    rw [hA,
      passwordAuth_hash_mismatch sha256 s name p none threshold now r hr hk hm']
    exact ⟨by simp [hm], fun _ => rfl⟩

/-- Witness for C7: enrolling `"bob"` with password `"Secret1"` and then
authenticating with `"secret1"` fails, state unchanged. -/
theorem c7_password_exact_witness :
    authenticate id bobState (some "bob") (some "secret1") none 0 1 =
      (bobState, none) :=
  (c7_password_exact id bobState "bob" "secret1" "Secret1" bobRec 0 1
      (by decide) (by decide) (by decide) (by decide) (by decide)).2
    (by decide)

/-- C8 counterexample: the empty-string username is registrable and can
authenticate by voice, after which `current_user = ""`; Python truthiness
then makes `logout()` a no-op, so `is_authenticated()` stays `True` — the
claim's "afterwards `is_authenticated()` is false" fails on this reachable
state. -/
theorem c8_counterexample :
    (authenticate id preEmpty none none (some [1]) (3/4) 5).2 = some "" ∧
    logout postEmpty = postEmpty ∧
    is_authenticated (logout postEmpty) = true ∧
    get_current_user (logout postEmpty) = some "" := by
  norm_num [preEmpty, postEmpty, register_user, initState, authenticate,
    voiceAuth, voiceScan, dot, dlookup, dinsert, truthyStr, create_session,
    logout, is_authenticated, get_current_user]

/-- C8 (amended): for every state whose cached identity is not the empty
string, `logout` only clears the in-memory current-identity cache —
afterwards `is_authenticated()` is false and `current_identity()` is `None`
— and leaves the credential store, the session store and both persistence
counters untouched. (When the cache holds the empty string, truthiness makes
`logout` a no-op.) -/
theorem c8_logout_frame (s : AuthState) (h : s.current_user ≠ some "") :
    logout s = { s with current_user := none } ∧
    is_authenticated (logout s) = false ∧
    get_current_user (logout s) = none ∧
    (logout s).users = s.users ∧
    (logout s).sessions = s.sessions ∧
    (logout s).userSaves = s.userSaves ∧
    (logout s).sessionSaves = s.sessionSaves := by
  obtain ⟨us, ss, cu, st, ve, usv, ssv⟩ := s
  cases cu with
  | none => exact ⟨rfl, rfl, rfl, rfl, rfl, rfl, rfl⟩
  | some x =>
      have hx : x ≠ "" := by
        intro he
        exact h (by rw [he])
      have ht : truthyStr (some x) = true := truthyStr_some hx
      simp [logout, ht, is_authenticated, get_current_user]

/-- Witness for C8: logging out the fixture whose cached identity is
`"bob"`. -/
theorem c8_logout_frame_witness :
    is_authenticated (logout bobLoggedIn) = false :=
  (c8_logout_frame bobLoggedIn (by decide)).2.1

/-- C9: `cleanup_expired_sessions` is idempotent at a fixed instant: after
one sweep no surviving record tests as expired, and a second sweep at the
same instant removes nothing and returns the state unchanged (and `None`). -/
theorem c9_cleanup_idempotent (s : AuthState) (now : Int) :
    ((cleanup_expired_sessions s now).1.sessions.filter
        fun p => sessionExpired now p.2) = [] ∧
    cleanup_expired_sessions (cleanup_expired_sessions s now).1 now =
      ((cleanup_expired_sessions s now).1, none) := by
  have h1 := (cleanup_state s now).1
  have hE : ((cleanup_expired_sessions s now).1.sessions.filter
      fun p => sessionExpired now p.2) = [] := by
    rw [h1]
    exact filter_not_filter_eq_nil _ _
  refine ⟨hE, cleanup_noop _ now ?_⟩
  intro p hp
  rw [h1] at hp
  have hmem := List.mem_filter.mp hp
  simpa using hmem.2

/-- Witness for C9: the second sweep on the one-session fixture is a no-op. -/
theorem c9_cleanup_idempotent_witness :
    cleanup_expired_sessions (cleanup_expired_sessions oneSession 2000).1 2000
      = ((cleanup_expired_sessions oneSession 2000).1, none) :=
  (c9_cleanup_idempotent oneSession 2000).2

/-- C10: deleting an enrolled identity removes only that credential record
and returns `True`; the session store, the cached current identity and the
session persistence counter are untouched, and if the deleted identity was
the current one, `is_authenticated()` still returns `True` and
`get_current_user()` still returns it. -/
theorem c10_delete_user_frame (s : AuthState) (u : String) (r : UserRecord)
    (hr : dlookup s.users u = some r) :
    delete_user s u =
      ({ s with users := dremove s.users u, userSaves := s.userSaves + 1 },
        true) ∧
    (∀ v, v ≠ u → dlookup (delete_user s u).1.users v = dlookup s.users v) ∧
    (delete_user s u).1.sessions = s.sessions ∧
    (delete_user s u).1.current_user = s.current_user ∧
    (delete_user s u).1.sessionSaves = s.sessionSaves ∧
    (s.current_user = some u →
      is_authenticated (delete_user s u).1 = true ∧
      get_current_user (delete_user s u).1 = some u) := by
  have hd : delete_user s u =
      ({ s with users := dremove s.users u, userSaves := s.userSaves + 1 },
        true) := by
    unfold delete_user
    rw [hr]
    rfl
  refine ⟨hd, ?_, by rw [hd], by rw [hd], by rw [hd], ?_⟩
  · intro v hv
    rw [hd]
    exact dlookup_dremove_ne _ _ _ hv
  · intro hc
    rw [hd]
    exact ⟨by simp [is_authenticated, hc], by simp [get_current_user, hc]⟩

/-- Witness for C10: deleting `"bob"` while `"bob"` is the cached identity
leaves the instance authenticated as `"bob"`. -/
theorem c10_delete_user_frame_witness :
    is_authenticated (delete_user bobLoggedIn "bob").1 = true ∧
    get_current_user (delete_user bobLoggedIn "bob").1 = some "bob" :=
  (c10_delete_user_frame bobLoggedIn "bob" bobRec (by decide)).2.2.2.2.2
    (by decide)

/-- C1 counterexample: one Voice record (`"alice"`, embedding `[1]`),
candidate `[0]`, threshold `0`. The best (only) similarity is
`dot [0] [1] = 0 ≥ threshold`, so the claim demands the best-matching name
`"alice"`; the code returns `None` (the accumulator starts at `0.0` with a
strict comparison, `best_match` stays `None`, and the acceptance branch dies
in the `KeyError → except` path). -/
theorem c1_counterexample :
    voicePairs [0] aliceState.users = [("alice", 0)] ∧
    (0 : ℚ) ≤ 0 ∧
    (authenticate id aliceState none none (some [0]) 0 0).2 = none := by
  norm_num [aliceState, aliceRec, voicePairs, dot, authenticate, voiceAuth,
    voiceScan, dlookup, truthyStr]

/-- C1 (amended): against a non-empty set of Voice-kind records the matcher
dot-scores every stored Voice embedding and tracks the maximum with
first-encountered-maximum tie-breaking, but the accumulator starts at `0.0`
with strict improvement, so: when the maximum score `m` is positive,
authenticate returns the first name attaining `m` iff `m ≥ threshold`
(boundary `m = threshold` accepts); when `m ≤ 0` the attempt is rejected
even if `m ≥ threshold`. -/
theorem c1_voice_threshold (sha256 : String → String) (s : AuthState)
    (test : List ℚ) (threshold m : ℚ) (now : Int)
    (hvoice : s.voice_auth_enabled = true)
    (hne : voicePairs test s.users ≠ [])
    (hub : ∀ q ∈ voicePairs test s.users, q.2 ≤ m)
    (hmem : ∃ q ∈ voicePairs test s.users, q.2 = m) :
    (0 < m ∧ threshold ≤ m →
      ∃ u l₁ l₂, voicePairs test s.users = l₁ ++ (u, m) :: l₂ ∧
        (∀ q ∈ l₁, q.2 < m) ∧
        (authenticate sha256 s none none (some test) threshold now).2 =
          some u) ∧
    (¬(0 < m ∧ threshold ≤ m) →
      (authenticate sha256 s none none (some test) threshold now).2 =
        none) := by
  have husers : s.users.isEmpty = false := voicePairs_ne_nil_users hne
  have hA : authenticate sha256 s none none (some test) threshold now =
      voiceAuth sha256 s (some test) threshold now := by
    rw [authenticate_no_pair sha256 s none none (some test) threshold now
        (Or.inl rfl), husers]
    simp
  have hscan : voiceScan test s.users none 0 =
      pairFold (voicePairs test s.users) none 0 :=
    voiceScan_eq_pairFold test s.users none 0
  by_cases h0 : 0 < m
  · obtain ⟨q, hq, hqm⟩ := hmem
    obtain ⟨u, m', l₁, l₂, hfold, hdecomp, hpre, hpost, hm'⟩ :=
      pairFold_high _ none 0 ⟨q, hq, by rw [hqm]; exact h0⟩
    have hmem' : (u, m') ∈ voicePairs test s.users := by
      rw [hdecomp]
      exact List.mem_append_right _ (List.mem_cons_self _ _)
    have hall : ∀ x ∈ voicePairs test s.users, x.2 ≤ m' := by
      rw [hdecomp]
      intro x hx
      rcases List.mem_append.mp hx with hx1 | hx2
      · exact le_of_lt (hpre x hx1)
      · rcases List.mem_cons.mp hx2 with rfl | hx3
        · exact le_refl _
        · exact hpost x hx3
    have hm'm : m' = m := le_antisymm (hub _ hmem') (hqm ▸ hall q hq)
    subst hm'm
    have hb : voiceScan test s.users none 0 = (some u, m') := by
      rw [hscan]
      exact hfold
    obtain ⟨r, hr⟩ : ∃ r, dlookup s.users u = some r :=
      Option.isSome_iff_exists.mp (voicePairs_lookup test s.users u m' hmem')
    constructor
    · rintro ⟨-, hth⟩
      refine ⟨u, l₁, l₂, hdecomp, hpre, ?_⟩
      rw [hA, voiceAuth_accept sha256 s test threshold now u r hvoice
          (by rw [hb]; exact hth) (by rw [hb]) hr]
    · intro hnot
      have hth : ¬threshold ≤ m' := fun hth => hnot ⟨h0, hth⟩
      rw [hA, voiceAuth_reject sha256 s test threshold now hvoice
          (by rw [hb]; exact hth)]
  · have hle0 : ∀ q ∈ voicePairs test s.users, q.2 ≤ (0 : ℚ) :=
      fun q hq => le_trans (hub q hq) (not_lt.mp h0)
    have hb : voiceScan test s.users none 0 = (none, 0) := by
      rw [hscan]
      exact pairFold_low _ none 0 hle0
    constructor
    · rintro ⟨hm0, -⟩
      exact absurd hm0 h0
    · intro hnot
      by_cases hth : threshold ≤ (0 : ℚ)
      · rw [hA, voiceAuth_accept_none sha256 s test threshold now hvoice
            (by rw [hb]; exact hth) (by rw [hb])]
      · rw [hA, voiceAuth_reject sha256 s test threshold now hvoice
            (by rw [hb]; exact hth)]

/-- Witness for C1: on the single-record fixture with candidate `[1]`
(score 1) and threshold `3/4`, the amended theorem yields acceptance of the
first maximum. -/
theorem c1_voice_threshold_witness :
    ∃ u l₁ l₂, voicePairs [1] aliceState.users = l₁ ++ (u, (1 : ℚ)) :: l₂ ∧
      (∀ q ∈ l₁, q.2 < (1 : ℚ)) ∧
      (authenticate id aliceState none none (some [1]) (3/4) 0).2 = some u :=
  (c1_voice_threshold id aliceState [1] (3/4) 1 0 rfl
      (by simp [aliceState, aliceRec, voicePairs])
      (by norm_num [aliceState, aliceRec, voicePairs, dot])
      (by norm_num [aliceState, aliceRec, voicePairs, dot])).1
    (by norm_num)

/-- C3 counterexample: `"alice"` is enrolled with the Voice kind; calling
authenticate with both her name and a password does NOT fail with
WrongAuthKind — it falls through to voice authentication and (the sample
matching) returns `"alice"`. -/
theorem c3_counterexample :
    (dlookup aliceState.users "alice").map (fun r => r.auth_type) =
      some AuthType.voice ∧
    (authenticate id aliceState (some "alice") (some "pw") (some [1]) (3/4)
        0).2 = some "alice" := by
  constructor
  · decide
  · have hA : authenticate id aliceState (some "alice") (some "pw")
        (some [1]) (3/4) 0 =
        passwordAuth id aliceState "alice" "pw" (some [1]) (3/4) 0 := by
      rw [authenticate_some_some]
      have h1 : truthyStr (some "alice") = true := truthyStr_some (by decide)
      have h2 : truthyStr (some "pw") = true := truthyStr_some (by decide)
      have h3 : aliceState.users.isEmpty = false := by decide
      rw [h3, h1, h2]
      simp
    have hbest : (voiceScan [1] aliceState.users none 0).1 = some "alice" := by
      norm_num [aliceState, aliceRec, voiceScan, dot]
    have hth : (3/4 : ℚ) ≤ (voiceScan [1] aliceState.users none 0).2 := by
      norm_num [aliceState, aliceRec, voiceScan, dot]
    rw [hA, passwordAuth_wrong_kind id aliceState "alice" "pw" (some [1])
        (3/4) 0 aliceRec (by decide) (by decide),
      voiceAuth_accept id aliceState [1] (3/4) 0 "alice" aliceRec rfl hth
        hbest (by decide)]

/-- C3 (amended): with both name and password present (truthy), dispatch
is: unknown name → failure (`None`, state unchanged); password-kind record →
resolved by password authentication only (digest match returns the name,
mismatch returns `None` with state unchanged); Voice-kind record → the call
is NOT rejected with WrongAuthKind but falls through to the voice
authentication section. -/
theorem c3_password_dispatch (sha256 : String → String) (s : AuthState)
    (u p : String) (voiceEmb : Option (List ℚ)) (threshold : ℚ) (now : Int)
    (hu : u ≠ "") (hp : p ≠ "") (hne : s.users.isEmpty = false) :
    (dlookup s.users u = none →
      authenticate sha256 s (some u) (some p) voiceEmb threshold now =
        (s, none)) ∧
    (∀ r, dlookup s.users u = some r → r.auth_type = AuthType.password →
      (some (sha256 p) = r.password_hash →
        (authenticate sha256 s (some u) (some p) voiceEmb threshold now).2 =
          some u) ∧
      (¬some (sha256 p) = r.password_hash →
        authenticate sha256 s (some u) (some p) voiceEmb threshold now =
          (s, none))) ∧
    (∀ r, dlookup s.users u = some r → r.auth_type = AuthType.voice →
      authenticate sha256 s (some u) (some p) voiceEmb threshold now =
        voiceAuth sha256 s voiceEmb threshold now) := by
  have hA : authenticate sha256 s (some u) (some p) voiceEmb threshold now =
      passwordAuth sha256 s u p voiceEmb threshold now := by
    rw [authenticate_some_some, hne]
    simp [truthyStr_some hu, truthyStr_some hp]
  refine ⟨?_, ?_, ?_⟩
  · intro h
    rw [hA, passwordAuth_absent sha256 s u p voiceEmb threshold now h]
  · intro r hr hk
    constructor
    · intro hm
      rw [hA,
        passwordAuth_hash_match sha256 s u p voiceEmb threshold now r hr hk hm]
    · intro hm
      rw [hA, passwordAuth_hash_mismatch sha256 s u p voiceEmb threshold now
          r hr hk hm]
  · intro r hr hk
    have hnk : ¬r.auth_type = AuthType.password := by
      rw [hk]
      intro h
      cases h
    rw [hA,
      passwordAuth_wrong_kind sha256 s u p voiceEmb threshold now r hr hnk]

/-- Witness for C3: an unknown name with a password fails with no state
change on the concrete store. -/
theorem c3_password_dispatch_witness :
    authenticate id bobState (some "carol") (some "pw") none 0 2 =
      (bobState, none) :=
  (c3_password_dispatch id bobState "carol" "pw" none 0 2 (by decide)
      (by decide) (by decide)).1 (by decide)

/-- C5: every operation of the `Authenticator` preserves the session-record
invariant: the timeout constant is unchanged (30 minutes on a fresh
instance), every session blob in the post-state is either an untouched blob
of the pre-state or a freshly sealed record with
`expires_at = created_at + session_timeout` and `expires_at > created_at`
(records are never mutated in place), and well-shapedness of all stored
records is preserved. -/
theorem c5_session_invariant (sha256 : String → String) (s s' : AuthState)
    (hstep : Step sha256 s s') (hpos : 0 < s.session_timeout) :
    s'.session_timeout = s.session_timeout ∧
    (∀ p ∈ s'.sessions, p ∈ s.sessions ∨
      ∃ d, p.2 = EncBlob.sealed d ∧
        d.expires_at = d.created_at + 60 * s.session_timeout ∧
        d.created_at < d.expires_at) ∧
    (SessionsOk s → SessionsOk s') ∧
    (∀ lu ls ve, (initState lu ls ve).session_timeout = 30) := by
  have main : s'.session_timeout = s.session_timeout ∧
      (∀ p ∈ s'.sessions, p ∈ s.sessions ∨
        ∃ d, p.2 = EncBlob.sealed d ∧
          d.expires_at = d.created_at + 60 * s.session_timeout ∧
          d.created_at < d.expires_at) ∧
      (SessionsOk s → SessionsOk s') := by
    cases hstep with
    | register username password voiceEmb now =>
        have h := register_user_state sha256 s username password voiceEmb now
        have hsc := sessions_shape_cases sha256 s _ h.2.1 (Or.inl h.1) hpos
        exact ⟨h.2.1, hsc.1, hsc.2⟩
    | auth username password voiceEmb threshold now =>
        have h := authenticate_state sha256 s username password voiceEmb
          threshold now
        have hS : (authenticate sha256 s username password voiceEmb threshold
              now).1.sessions = s.sessions ∨
            ∃ u now', (authenticate sha256 s username password voiceEmb
                threshold now).1.sessions =
              dinsert s.sessions (sha256 (u ++ toString now'))
                (EncBlob.sealed { username := u, created_at := now',
                                  expires_at := now' + 60 * s.session_timeout }) := by
          rcases h.2 with h2 | ⟨u, h2⟩
          · exact Or.inl h2
          · exact Or.inr ⟨u, now, h2⟩
        have hsc := sessions_shape_cases sha256 s _ h.1 hS hpos
        exact ⟨h.1, hsc.1, hsc.2⟩
    | createSess username now =>
        have h := create_session_state sha256 s username now
        have hsc := sessions_shape_cases sha256 s _ h.2
          (Or.inr ⟨username, now, h.1⟩) hpos
        exact ⟨h.2, hsc.1, hsc.2⟩
    | doLogout =>
        have h := logout_state s
        have hsc := sessions_shape_cases sha256 s _ h.2 (Or.inl h.1) hpos
        exact ⟨h.2, hsc.1, hsc.2⟩
    | cleanup now =>
        have h := cleanup_state s now
        refine ⟨h.2.1, ?_, ?_⟩
        · intro p hp
          rw [h.1] at hp
          exact Or.inl (List.mem_of_mem_filter hp)
        · intro hok
          refine fun p hp => ?_
          rw [h.2.1]
          rw [h.1] at hp
          exact hok p (List.mem_of_mem_filter hp)
    | deleteUser username =>
        have h := delete_user_state s username
        have hsc := sessions_shape_cases sha256 s _ h.2 (Or.inl h.1) hpos
        exact ⟨h.2, hsc.1, hsc.2⟩
  exact ⟨main.1, main.2.1, main.2.2, fun lu ls ve => rfl⟩

/-- Witness for C5: the logout step on a fresh instance preserves the
timeout constant. -/
theorem c5_session_invariant_witness :
    (logout (initState [] [] false)).session_timeout =
      (initState [] [] false).session_timeout :=
  (c5_session_invariant id (initState [] [] false) _
      (Step.doLogout (initState [] [] false)) (by decide)).1

end EchoAuth
